import Mathlib

/-!
Shallow embedding of the ITMS dashboard telemetry core
(`backend/app/utils/sensor_parser.py` and `backend/app/api/sensor_routes.py`).

Numeric values are modelled with `Int` (Python `int`) and `ℚ` (Python `float`:
every literal appearing in the program and in the claims is an exact decimal,
so rational arithmetic agrees with IEEE doubles on everything proved here).
Fallible Python code (`try`/`except`, `int()`/`float()` conversions) is
modelled with `Option` / `Except`.
-/

namespace ITMS

/-! ### Python numeric string conversions

`pyInt` and `pyFloat` model the Python builtins `int(str)` and `float(str)`
on the decimal forms exercised by this program: surrounding whitespace is
ignored, an optional sign is accepted, `pyFloat` accepts an optional single
decimal point.  (Exponent forms, `inf`/`nan` and digit underscores are not
modelled; no input in this development uses them.)  `none` models the
`ValueError` the builtin raises on any other string. -/

/-- Strip leading and trailing whitespace from a character list (model of
Python `str.strip()` with no argument). -/
def trimChars (cs : List Char) : List Char :=
  ((cs.dropWhile Char.isWhitespace).reverse.dropWhile Char.isWhitespace).reverse

def digitsToNat (cs : List Char) : ℕ :=
  cs.foldl (fun a c => a * 10 + (c.toNat - 48)) 0

def isDigits (cs : List Char) : Bool :=
  !cs.isEmpty && cs.all Char.isDigit

def pyIntCore (cs : List Char) : Option Int :=
  if isDigits cs then some (digitsToNat cs : Int) else none

/-- Model of Python `int(value)` for a string value. -/
def pyInt (s : String) : Option Int :=
  match trimChars s.toList with
  | '+' :: rest => pyIntCore rest
  | '-' :: rest => (pyIntCore rest).map (fun n => -n)
  | cs => pyIntCore cs

/-- The decimal `ip.fp` as a rational, written as a single quotient
`(ip * 10^|fp| + fp) / 10^|fp|`. -/
def pyFloatCore (cs : List Char) : Option ℚ :=
  if cs.contains '.' then
    let ip := cs.takeWhile (fun c => c ≠ '.')
    let fp := (cs.dropWhile (fun c => c ≠ '.')).tail
    if fp.contains '.' then none
    else if ip.all Char.isDigit && fp.all Char.isDigit && (!ip.isEmpty || !fp.isEmpty) then
      some (mkRat ((digitsToNat ip * 10 ^ fp.length + digitsToNat fp : ℕ) : ℤ)
              (10 ^ fp.length))
    else none
  else if isDigits cs then some ((digitsToNat cs : ℚ)) else none

/-- Model of Python `float(value)` for a string value. -/
def pyFloat (s : String) : Option ℚ :=
  match trimChars s.toList with
  | '+' :: rest => pyFloatCore rest
  | '-' :: rest => (pyFloatCore rest).map (fun q => -q)
  | cs => pyFloatCore cs

/-! ### The decoder: `SensorDataParser.parse_sensor_string`

The Python function builds a dict incrementally while scanning the
comma-split components; `PDict` is that dict (each key either absent or
present).  The whole scan runs inside `try: ... except Exception: return None`,
and every conversion failure for a recognized non-ACC key raises out of the
scan, so the scan is modelled in `Option` with `none` for an aborted parse. -/

structure PDict where
  ir_detection : Option Int := none
  vibration_raw : Option Int := none
  distance_adjusted : Option ℚ := none
  acceleration_x : Option ℚ := none
  acceleration_y : Option ℚ := none
  acceleration_z : Option ℚ := none
  fault_detected : Option Int := none
deriving Repr, DecidableEq

/-- Split a character list at every occurrence of `sep` (model of Python
`str.split(sep)`: splitting the empty string gives one empty piece). -/
def splitOnChar (sep : Char) : List Char → List (List Char)
  | [] => [[]]
  | c :: rest =>
      match splitOnChar sep rest with
      | [] => [[]]
      | cur :: others => if c = sep then [] :: cur :: others else (c :: cur) :: others

/-- Model of `sensor_data.strip().split(',')`. -/
def splitComponents (s : String) : List String :=
  (splitOnChar ',' (trimChars s.toList)).map (fun cs => (⟨cs⟩ : String))

/-- Model of the `':' not in component` guard followed by
`component.split(':', 1)` with both halves stripped:
`none` when the component has no colon, otherwise the part before the
first colon and everything after it. -/
def splitFirstColon (c : String) : Option (String × String) :=
  if c.toList.contains ':' then
    some ((⟨trimChars (c.toList.takeWhile (fun x => x ≠ ':'))⟩ : String),
          (⟨trimChars ((c.toList.dropWhile (fun x => x ≠ ':')).tail)⟩ : String))
  else none

/-- Model of Python `list.index(x)`: the position of the first element
equal to `x` (the scan only queries it for elements of the list, where it
never raises). -/
def componentIndex (c : String) : List String → ℕ
  | [] => 0
  | c' :: rest => if c' = c then 0 else componentIndex c rest + 1

/-- Whether a component would be dispatched under the given key. -/
def hasKey (key : String) (c : String) : Bool :=
  match splitFirstColon c with
  | some (k, _) => k == key
  | none => false

/-- Model of the `ACC` branch (lines 43-67 of the source).  `all` is the full
component list (the Python code consults `components`, not the remaining
suffix), `c` the ACC component itself, `value` its stripped value.
`components.index(component)` is Python's first-occurrence index, hence
`List.indexOf`.  The inner `except (ValueError, IndexError)` catches any
failed `float(...)` and zeroes all three fields; this branch never aborts
the outer scan. -/
def accBranch (all : List String) (c : String) (value : String) (st : PDict) : PDict :=
  match pyFloat value with
  | none =>
      { st with acceleration_x := some 0, acceleration_y := some 0, acceleration_z := some 0 }
  | some ax =>
      let i := componentIndex c all
      if i + 1 < all.length ∧ i + 2 < all.length then
        match pyFloat (all.getD (i + 1) "") with
        | none =>
            { st with acceleration_x := some 0, acceleration_y := some 0,
                      acceleration_z := some 0 }
        | some ay =>
            match pyFloat (all.getD (i + 2) "") with
            | none =>
                { st with acceleration_x := some 0, acceleration_y := some 0,
                          acceleration_z := some 0 }
            | some az =>
                { st with acceleration_x := some ax, acceleration_y := some ay,
                          acceleration_z := some az }
      else
        { st with acceleration_x := some ax, acceleration_y := some 0,
                  acceleration_z := some 0 }

/-- One iteration of the component loop: key dispatch in source order.
A failed `int()`/`float()` for a recognized non-ACC key raises, aborting the
scan (`none`); unrecognized keys and colon-free components are skipped. -/
def processComponent (all : List String) (c : String) (st : PDict) : Option PDict :=
  match splitFirstColon c with
  | none => some st
  | some (key, value) =>
      if key = "IR" then
        (pyInt value).map (fun n => { st with ir_detection := some n })
      else if key = "VIB_RAW" then
        (pyInt value).map (fun n => { st with vibration_raw := some n })
      else if key = "DIST_ADJ" then
        (pyFloat value).map (fun q => { st with distance_adjusted := some q })
      else if key = "ACC" then
        some (accBranch all c value st)
      else if key = "FAULT" then
        (pyInt value).map (fun n => { st with fault_detected := some n })
      else
        some st

/-- The component loop over the full list. -/
def parseLoop (all : List String) : List String → PDict → Option PDict
  | [], st => some st
  | c :: rest, st =>
      match processComponent all c st with
      | none => none
      | some st' => parseLoop all rest st'

/-- The decoded reading produced by a successful parse. -/
structure Parsed where
  ir_detection : Int
  vibration_raw : Int
  distance_adjusted : ℚ
  acceleration_x : ℚ
  acceleration_y : ℚ
  acceleration_z : ℚ
  fault_detected : Int
deriving Repr, DecidableEq

/-- Model of the required-field validation (lines 71-76) followed by the
acceleration defaulting (lines 78-82): every code path of the ACC branch
sets the three acceleration keys together, so `acceleration_x` present
implies the other two are present; `getD 0` is therefore never exercised
with `none` in the `some ax` branch. -/
def finalize (st : PDict) : Option Parsed :=
  match st.ir_detection, st.vibration_raw, st.distance_adjusted, st.fault_detected with
  | some ir, some vib, some dist, some flt =>
      match st.acceleration_x with
      | none => some ⟨ir, vib, dist, 0, 0, 0, flt⟩
      | some ax =>
          some ⟨ir, vib, dist, ax, st.acceleration_y.getD 0, st.acceleration_z.getD 0, flt⟩
  | _, _, _, _ => none

/-- Model of `SensorDataParser.parse_sensor_string`: scan every component
of the split (the loop also consults the full list, for the ACC branch),
then validate and default. -/
def parse_sensor_string (s : String) : Option Parsed :=
  match parseLoop (splitComponents s) (splitComponents s) {} with
  | none => none
  | some st => finalize st

/-! ### The classifier: `SensorDataParser.detect_faults`

`detect_faults` takes a Python dict (`Dict[str, Any]`) and reads six keys
with `.get(key, 0)`.  To model Python dynamic typing and the `TypeError`
raised when a string is compared with a number, dict values are `PyVal`
and each comparison is an `Except` computation.  The four rules run inside
a single `try:` block whose `except` returns the flags accumulated so far. -/

inductive PyVal where
  | num : ℚ → PyVal
  | str : String → PyVal
deriving Repr, DecidableEq

/-- The dict argument of `detect_faults`; a key maps to `none` when absent
(`fault_detected` is never read there, so it is omitted). -/
structure FaultInput where
  ir_detection : Option PyVal := none
  vibration_raw : Option PyVal := none
  distance_adjusted : Option PyVal := none
  acceleration_x : Option PyVal := none
  acceleration_y : Option PyVal := none
  acceleration_z : Option PyVal := none
deriving Repr, DecidableEq

/-- Python `a <= b`: numbers compare numerically, strings lexicographically,
and a string/number mix raises `TypeError`. -/
def pyLE : PyVal → PyVal → Except Unit Bool
  | .num a, .num b => .ok (decide (a ≤ b))
  | .str a, .str b => .ok (decide (a ≤ b))
  | _, _ => .error ()

/-- Python `a < b`, same error behavior as `pyLE`. -/
def pyLT : PyVal → PyVal → Except Unit Bool
  | .num a, .num b => .ok (decide (a < b))
  | .str a, .str b => .ok (decide (a < b))
  | _, _ => .error ()

/-- Python `a == b`: never raises; a string/number mix is simply `False`. -/
def pyEq : PyVal → PyVal → Bool
  | .num a, .num b => a == b
  | .str a, .str b => a == b
  | _, _ => false

/-- Python `abs(a)`: raises `TypeError` on a string. -/
def pyAbs : PyVal → Except Unit ℚ
  | .num a => .ok |a|
  | .str _ => .error ()

/-- The chained comparison `400 <= vib_raw <= 450` (line 106):
the second comparison only runs when the first is true. -/
def vibCond (d : FaultInput) : Except Unit Bool := do
  let v := d.vibration_raw.getD (.num 0)
  let b1 ← pyLE (.num 400) v
  if b1 then pyLE v (.num 450) else pure false

/-- The short-circuiting `distance < 5.0 or distance > 50.0` (line 111). -/
def distCond (d : FaultInput) : Except Unit Bool := do
  let v := d.distance_adjusted.getD (.num 0)
  let b1 ← pyLT v (.num 5)
  if b1 then pure true else pyLT (.num 50) v

/-- The test `ir_detection == 1` (line 116); equality never raises. -/
def irCond (d : FaultInput) : Bool :=
  pyEq (d.ir_detection.getD (.num 0)) (.num 1)

/-- Lines 120-126: `abs` of the three acceleration values (each may raise),
then the threshold disjunction over numbers (which cannot raise). -/
def accCond (d : FaultInput) : Except Unit Bool := do
  let ax ← pyAbs (d.acceleration_x.getD (.num 0))
  let ay ← pyAbs (d.acceleration_y.getD (.num 0))
  let az ← pyAbs (d.acceleration_z.getD (.num 0))
  pure (decide (1000 < ax ∨ 1000 < ay ∨ 1000 < az))

structure Faults where
  vibration_fault : Bool := false
  distance_fault : Bool := false
  ir_fault : Bool := false
  acceleration_fault : Bool := false
deriving Repr, DecidableEq

/-- Model of `SensorDataParser.detect_faults`: the flag dict starts all
false; the four rules run in source order inside one `try:`; an exception
returns the flags accumulated so far (the remaining rules never run). -/
def detect_faults (d : FaultInput) : Faults :=
  let f : Faults := {}
  match vibCond d with
  | .error _ => f
  | .ok b1 =>
      let f := { f with vibration_fault := b1 }
      match distCond d with
      | .error _ => f
      | .ok b2 =>
          let f := { f with distance_fault := b2 }
          let f := { f with ir_fault := irCond d }
          match accCond d with
          | .error _ => f
          | .ok b4 => { f with acceleration_fault := b4 }

/-- The dict a successful `parse_sensor_string` hands to `detect_faults`
inside `process_sensor_input`: every value numeric, every key present. -/
def Parsed.toFaultInput (r : Parsed) : FaultInput :=
  { ir_detection := some (.num (r.ir_detection : ℚ)),
    vibration_raw := some (.num (r.vibration_raw : ℚ)),
    distance_adjusted := some (.num r.distance_adjusted),
    acceleration_x := some (.num r.acceleration_x),
    acceleration_y := some (.num r.acceleration_y),
    acceleration_z := some (.num r.acceleration_z) }

/-! ### The ingestion pipeline: `process_sensor_input` and the route -/

def anyFault (f : Faults) : Bool :=
  f.vibration_fault || f.distance_fault || f.ir_fault || f.acceleration_fault

/-- Result of `SensorDataParser.process_sensor_input` (timestamp and the
retained raw string omitted: no claim touches them).  `fault_detected`
is the truth value stored in the Boolean `fault_detected` column: the
source keeps the declared wire integer unless some flag is true, in which
case it overwrites it with `True` (lines 179-180); the Boolean column
records the Python truthiness of that value. -/
structure Processed where
  reading : Parsed
  faults : Faults
  fault_detected : Bool
deriving Repr, DecidableEq

/-- Model of `SensorDataParser.process_sensor_input`. -/
def process_sensor_input (s : String) : Option Processed :=
  match parse_sensor_string s with
  | none => none
  | some r =>
      let f := detect_faults r.toFaultInput
      some { reading := r, faults := f,
             fault_detected := if anyFault f then true else r.fault_detected != 0 }

/-- A fault-log row as created by `receive_sensor_data` (description and
foreign key omitted: no claim touches them). -/
structure FaultEvent where
  fault_type : String
  severity : String
deriving Repr, DecidableEq

/-- Model of the fault-log creation block of `receive_sensor_data`
(lines 56-96 of `sensor_routes.py`), in source order.  Note the third
condition is the source's `if processed_data['ir_detection']:` — Python
truthiness of the raw integer, not the classifier's `ir_fault` flag. -/
def makeFaultLogs (p : Processed) : List FaultEvent :=
  (if p.faults.vibration_fault then [⟨"vibration", "major"⟩] else []) ++
  (if p.faults.distance_fault then [⟨"distance", "minor"⟩] else []) ++
  (if p.reading.ir_detection != 0 then [⟨"ir", "critical"⟩] else []) ++
  (if p.faults.acceleration_fault then [⟨"acceleration", "major"⟩] else [])

/-- The committed contents of the record store (the SQLite database):
the sensor-reading rows and the fault-log rows. -/
structure StoredRecord where
  reading : Parsed
  fault_detected : Bool
deriving Repr, DecidableEq

structure Store where
  readings : List StoredRecord := []
  faults : List FaultEvent := []
deriving Repr, DecidableEq

/-- Model of the `receive_sensor_data` route body.  Transactional semantics
of the session (external collaborator, standard SQLAlchemy behavior): rows
`add`ed to the session are pending until `commit()`; `rollback()` discards
only pending rows, never committed ones.  The route commits twice: once
after adding the reading (line 53), once after adding the fault logs
(line 98).  `eventCommitFails` injects a persistence failure at the second
commit; the `except` handler then rolls back the pending event rows and
surfaces an HTTP 500.  Returns the committed store and a success flag
(`false` = an HTTP error was raised to the caller). -/
def receive_sensor_data (st : Store) (s : String) (eventCommitFails : Bool) :
    Store × Bool :=
  match process_sensor_input s with
  | none => (st, false)
  | some p =>
      let st1 : Store := { st with readings := st.readings ++ [⟨p.reading, p.fault_detected⟩] }
      if eventCommitFails then
        (st1, false)
      else
        ({ st1 with faults := st1.faults ++ makeFaultLogs p }, true)

/-! ### Aggregation: `get_sensor_stats` and `get_dashboard_data` -/

/-- Python `round(q, 2)` for the exact two-decimal values arising here
(Python rounds half to even; every value this development evaluates it on
is exact at two decimals, where the two conventions agree). -/
def round2 (q : ℚ) : ℚ :=
  ((round (q * 100) : ℤ) : ℚ) / 100

/-- The `fault_rate` computed by `get_sensor_stats` (lines 179-185, rounded
at line 213): `total_faults / total_readings * 100` when there are
readings, else `0`. -/
def fault_rate (st : Store) : ℚ :=
  round2 (if 0 < st.readings.length then
            ((st.faults.length : ℚ) / (st.readings.length : ℚ)) * 100
          else 0)

/-- Model of the connection-status computation of `get_dashboard_data`
(lines 236-245), as a function of the age (in seconds, possibly
fractional) of the latest reading — `none` when the store has no reading:
start at "connected"; with a latest reading, age over 10 seconds gives
"disconnected", else age over 5 seconds gives "warning"; with none,
"no_data". -/
def connection_status (ageOfLatest : Option ℚ) : String :=
  match ageOfLatest with
  | none => "no_data"
  | some a => if 10 < a then "disconnected" else if 5 < a then "warning" else "connected"

/-- Modelled from the spec: the connection-status table of the claim,
stated in the spec's words (age ≤ 5 connected, 5 < age ≤ 10 warning,
age > 10 disconnected, no record no_data), for comparison with
`connection_status`. -/
def connectionStatusSpec (ageOfLatest : Option ℚ) : String :=
  match ageOfLatest with
  | none => "no_data"
  | some a => if a ≤ 5 then "connected" else if a ≤ 10 then "warning" else "disconnected"

/-! ### Auxiliary predicates over components -/

/-- A component whose recognized non-ACC key has a value its conversion
rejects: inside the scan this raises `ValueError`, aborting the parse. -/
def badConv (c : String) : Bool :=
  match splitFirstColon c with
  | some (k, v) =>
      ((k == "IR" || k == "VIB_RAW" || k == "FAULT") && (pyInt v).isNone) ||
        (k == "DIST_ADJ" && (pyFloat v).isNone)
  | none => false

/-- The value of the last component carrying the given key, if any. -/
def lastValueOf (key : String) : List String → Option String
  | [] => none
  | c :: rest =>
      match lastValueOf key rest with
      | some v => some v
      | none =>
          match splitFirstColon c with
          | some (k, v) => if k == key then some v else none
          | none => none

/-! ### Concrete inputs used by individual claims -/

/-- A reading that triggers all four fault categories at once
(vibration 425 in band, distance 3 below minimum, IR 1, accelerations
beyond 1000). -/
def allFaultsInput : String := "IR:1,VIB_RAW:425,DIST_ADJ:3,ACC:2000,2000,2000,FAULT:1"

/-- The store after ingesting `allFaultsInput` into an empty store with no
persistence failure. -/
def allFaultsStore : Store := (receive_sensor_data {} allFaultsInput false).1

/-- A reading triggering three fault categories, used to exercise the
event-persistence failure path. -/
def threeFaultsInput : String := "IR:1,VIB_RAW:425,DIST_ADJ:3,ACC:0,0,0,FAULT:1"

/-- A classifier dict whose vibration value is a string (so the vibration
comparison raises `TypeError`) while distance 3 and IR 1 would trigger
their own rules. -/
def strVibInput : FaultInput :=
  { ir_detection := some (.num 1),
    vibration_raw := some (.str "abc"),
    distance_adjusted := some (.num 3) }

/-! ## Helper lemmas -/

/-- On the all-numeric dicts produced by the pipeline, no classifier rule
raises, and each flag is exactly its threshold test. -/
theorem detect_faults_pipeline (r : Parsed) :
    detect_faults r.toFaultInput =
      { vibration_fault := decide (400 ≤ r.vibration_raw ∧ r.vibration_raw ≤ 450),
        distance_fault := decide (r.distance_adjusted < 5 ∨ 50 < r.distance_adjusted),
        ir_fault := decide (r.ir_detection = 1),
        acceleration_fault :=
          decide (1000 < |r.acceleration_x| ∨ 1000 < |r.acceleration_y| ∨
                  1000 < |r.acceleration_z|) } := by
  have c1 : ((400 : ℚ) ≤ (r.vibration_raw : ℚ)) ↔ (400 ≤ r.vibration_raw) := by
    exact_mod_cast Iff.rfl
  have c2 : ((r.vibration_raw : ℚ) ≤ 450) ↔ (r.vibration_raw ≤ 450) := by
    exact_mod_cast Iff.rfl
  have c3 : ((r.ir_detection : ℚ) = 1) ↔ (r.ir_detection = 1) := by
    exact_mod_cast Iff.rfl
  unfold detect_faults vibCond distCond irCond accCond Parsed.toFaultInput
  simp only [Option.getD, pyLE, pyLT, pyEq, pyAbs, bind, Except.bind, pure, Except.pure]
  by_cases h1 : (400 ≤ r.vibration_raw) <;>
    by_cases h2 : (r.vibration_raw ≤ 450) <;>
      by_cases h3 : r.distance_adjusted < (5 : ℚ) <;>
        simp [c1, c2, c3, h1, h2, h3, Faults.mk.injEq, decide_eq_decide, beq_iff_eq] <;>
          (rw [Bool.eq_iff_iff]; simp [c3])

/-- A bad conversion for a recognized non-ACC key aborts the component
dispatch, whatever the state. -/
theorem processComponent_bad {c : String} (all : List String) (st : PDict)
    (h : badConv c = true) : processComponent all c st = none := by
  unfold badConv at h
  unfold processComponent
  rcases hc : splitFirstColon c with _ | ⟨k, v⟩ <;> rw [hc] at h <;> dsimp only at h ⊢
  · cases h
  · simp only [Bool.or_eq_true, Bool.and_eq_true, beq_iff_eq, Option.isNone_iff_eq_none] at h
    rcases h with ⟨hk, hv⟩ | ⟨hk, hv⟩
    · rcases hk with (rfl | rfl) | rfl <;> simp [hv]
    · subst hk; simp [hv]

/-- If any component of the remaining list has a bad conversion, the scan
aborts. -/
theorem parseLoop_none_of_bad (all : List String) :
    ∀ l st, (∃ c ∈ l, badConv c = true) → parseLoop all l st = none := by
  intro l
  induction l with
  | nil => rintro st ⟨c, hc, -⟩; cases hc
  | cons c rest ih =>
      rintro st ⟨c', hc', hbad⟩
      rcases List.mem_cons.mp hc' with rfl | hmem
      · unfold parseLoop
        rw [processComponent_bad all st hbad]
      · unfold parseLoop
        rcases hpc : processComponent all c st with _ | st'
        · rfl
        · exact ih st' ⟨c', hmem, hbad⟩

/-- The `accBranch` update never touches the four non-acceleration fields,
and always sets all three acceleration fields to `some` values. -/
theorem accBranch_fields (all : List String) (c value : String) (st : PDict) :
    (accBranch all c value st).ir_detection = st.ir_detection
    ∧ (accBranch all c value st).vibration_raw = st.vibration_raw
    ∧ (accBranch all c value st).distance_adjusted = st.distance_adjusted
    ∧ (accBranch all c value st).fault_detected = st.fault_detected
    ∧ (accBranch all c value st).acceleration_x.isSome
    ∧ (accBranch all c value st).acceleration_y.isSome
    ∧ (accBranch all c value st).acceleration_z.isSome := by
  unfold accBranch
  rcases pyFloat value with _ | ax
  · simp
  · simp only
    split
    · rcases pyFloat (all.getD (componentIndex c all + 1) "") with _ | ay
      · simp
      · rcases pyFloat (all.getD (componentIndex c all + 2) "") with _ | az <;> simp
    · simp

/-- Dispatching a component leaves every field whose key the component
does not carry unchanged. -/
theorem processComponent_preserve {all : List String} {c : String} {st st' : PDict}
    (h : processComponent all c st = some st') :
    (hasKey "IR" c = false → st'.ir_detection = st.ir_detection)
    ∧ (hasKey "VIB_RAW" c = false → st'.vibration_raw = st.vibration_raw)
    ∧ (hasKey "DIST_ADJ" c = false → st'.distance_adjusted = st.distance_adjusted)
    ∧ (hasKey "FAULT" c = false → st'.fault_detected = st.fault_detected)
    ∧ (hasKey "ACC" c = false →
        st'.acceleration_x = st.acceleration_x
        ∧ st'.acceleration_y = st.acceleration_y
        ∧ st'.acceleration_z = st.acceleration_z) := by
  unfold processComponent at h
  unfold hasKey
  rcases hc : splitFirstColon c with _ | ⟨k, v⟩ <;> rw [hc] at h <;> dsimp only at h ⊢
  · injection h with h; subst h; simp
  · split_ifs at h with h1 h2 h3 h4 h5
    · rcases hv : pyInt v with _ | n <;> rw [hv] at h
      · cases h
      · injection h with h; subst h; simp [h1]
    · rcases hv : pyInt v with _ | n <;> rw [hv] at h
      · cases h
      · injection h with h; subst h; simp [h2]
    · rcases hv : pyFloat v with _ | q <;> rw [hv] at h
      · cases h
      · injection h with h; subst h; simp [h3]
    · injection h with h; subst h
      have hf := accBranch_fields all c v st
      simp [h4, hf.1, hf.2.1, hf.2.2.1, hf.2.2.2.1]
    · rcases hv : pyInt v with _ | n <;> rw [hv] at h
      · cases h
      · injection h with h; subst h; simp [h5]
    · injection h with h; subst h; simp

/-- Dispatching a component carrying a recognized non-ACC key stores that
key's converted value. -/
theorem processComponent_set {all : List String} {c : String} {st st' : PDict}
    {k v : String} (hc : splitFirstColon c = some (k, v))
    (h : processComponent all c st = some st') :
    (k = "IR" → st'.ir_detection = pyInt v)
    ∧ (k = "VIB_RAW" → st'.vibration_raw = pyInt v)
    ∧ (k = "DIST_ADJ" → st'.distance_adjusted = pyFloat v)
    ∧ (k = "FAULT" → st'.fault_detected = pyInt v) := by
  unfold processComponent at h
  rw [hc] at h
  dsimp only at h
  split_ifs at h with h1 h2 h3 h4 h5
  · subst h1
    rcases hv : pyInt v with _ | n <;> rw [hv] at h
    · cases h
    · injection h with h; subst h
      exact ⟨fun _ => by simp [hv], fun hk => absurd hk (by decide),
             fun hk => absurd hk (by decide), fun hk => absurd hk (by decide)⟩
  · subst h2
    rcases hv : pyInt v with _ | n <;> rw [hv] at h
    · cases h
    · injection h with h; subst h
      exact ⟨fun hk => absurd hk (by decide), fun _ => by simp [hv],
             fun hk => absurd hk (by decide), fun hk => absurd hk (by decide)⟩
  · subst h3
    rcases hv : pyFloat v with _ | q <;> rw [hv] at h
    · cases h
    · injection h with h; subst h
      exact ⟨fun hk => absurd hk (by decide), fun hk => absurd hk (by decide),
             fun _ => by simp [hv], fun hk => absurd hk (by decide)⟩
  · subst h4
    exact ⟨fun hk => absurd hk (by decide), fun hk => absurd hk (by decide),
           fun hk => absurd hk (by decide), fun hk => absurd hk (by decide)⟩
  · subst h5
    rcases hv : pyInt v with _ | n <;> rw [hv] at h
    · cases h
    · injection h with h; subst h
      exact ⟨fun hk => absurd hk (by decide), fun hk => absurd hk (by decide),
             fun hk => absurd hk (by decide), fun _ => by simp [hv]⟩
  · exact ⟨fun hk => absurd hk h1, fun hk => absurd hk h2,
           fun hk => absurd hk h3, fun hk => absurd hk h5⟩

/-- Scanning a list is scanning its two halves in sequence. -/
theorem parseLoop_append (all : List String) :
    ∀ l₁ l₂ st, parseLoop all (l₁ ++ l₂) st =
      (parseLoop all l₁ st).bind (parseLoop all l₂) := by
  intro l₁
  induction l₁ with
  | nil => intro l₂ st; rfl
  | cons c rest ih =>
      intro l₂ st
      show parseLoop all (c :: (rest ++ l₂)) st = _
      unfold parseLoop
      rcases hpc : processComponent all c st with _ | st₁ <;> simp [hpc, ih]
      rcases parseLoop all rest st₁ with _ | st₂
      · rfl
      · show parseLoop all l₂ st₂ = _
        cases l₂ <;> rfl

/-- A scan over components none of which carries the ACC key leaves all
three acceleration fields unchanged. -/
theorem parseLoop_acc_preserve (all : List String) :
    ∀ l st st', (∀ c ∈ l, hasKey "ACC" c = false) →
      parseLoop all l st = some st' →
      st'.acceleration_x = st.acceleration_x
      ∧ st'.acceleration_y = st.acceleration_y
      ∧ st'.acceleration_z = st.acceleration_z := by
  intro l
  induction l with
  | nil => intro st st' _ h; injection h with h; subst h; exact ⟨rfl, rfl, rfl⟩
  | cons c rest ih =>
      intro st st' hall h
      unfold parseLoop at h
      rcases hpc : processComponent all c st with _ | st₁ <;> rw [hpc] at h
      · cases h
      · have h₁ := (processComponent_preserve hpc).2.2.2.2 (hall c (List.mem_cons_self c rest))
        have h₂ := ih st₁ st' (fun c' hc' => hall c' (List.mem_cons_of_mem c hc')) h
        exact ⟨h₂.1.trans h₁.1, h₂.2.1.trans h₁.2.1, h₂.2.2.trans h₁.2.2⟩

/-- Generic last-occurrence lemma: a field written only by components
carrying key `K` ends the scan holding the converted value of the last
`K` component, or its initial value when there is none. -/
theorem parseLoop_lastKey {α : Type} (K : String) (g : PDict → Option α)
    (pf : String → Option α)
    (hset : ∀ {all : List String} {c : String} {st st' : PDict} (v : String),
        splitFirstColon c = some (K, v) → processComponent all c st = some st' →
        g st' = pf v)
    (hpres : ∀ {all : List String} {c : String} {st st' : PDict},
        hasKey K c = false → processComponent all c st = some st' → g st' = g st)
    (all : List String) :
    ∀ l st st', parseLoop all l st = some st' →
      (lastValueOf K l = none → g st' = g st)
      ∧ (∀ v, lastValueOf K l = some v → g st' = pf v) := by
  intro l
  induction l with
  | nil =>
      intro st st' h
      injection h with h; subst h
      exact ⟨fun _ => rfl, fun v hv => by cases hv⟩
  | cons c rest ih =>
      intro st st' h
      unfold parseLoop at h
      rcases hpc : processComponent all c st with _ | st₁ <;> rw [hpc] at h
      · cases h
      · have ihr := ih st₁ st' h
        constructor
        · intro hl
          unfold lastValueOf at hl
          rcases hr : lastValueOf K rest with _ | v <;> rw [hr] at hl
          · have hrest := ihr.1 hr
            rcases hc : splitFirstColon c with _ | ⟨k, v0⟩ <;> rw [hc] at hl
            · rw [hrest, hpres (by simp [hasKey, hc]) hpc]
            · dsimp only at hl
              by_cases hk : (k == K) = true
              · rw [if_pos hk] at hl; cases hl
              · rw [hrest, hpres (by simp [hasKey, hc, hk]) hpc]
          · cases hl
        · intro v hv
          unfold lastValueOf at hv
          rcases hr : lastValueOf K rest with _ | v' <;> rw [hr] at hv
          · have hrest := ihr.1 hr
            rcases hc : splitFirstColon c with _ | ⟨k, v0⟩ <;> rw [hc] at hv
            · cases hv
            · dsimp only at hv
              by_cases hk : (k == K) = true
              · rw [if_pos hk] at hv
                injection hv with hv; subst hv
                have hkk : k = K := by simpa using hk
                subst hkk
                rw [hrest]
                exact hset v0 hc hpc
              · rw [if_neg hk] at hv; cases hv
          · injection hv with hv; subst hv
            exact ihr.2 v' hr

/-- A successful parse is a successful scan followed by a successful
validation. -/
theorem parse_split {s : String} {r : Parsed} (h : parse_sensor_string s = some r) :
    ∃ st, parseLoop (splitComponents s) (splitComponents s) {} = some st
      ∧ finalize st = some r := by
  unfold parse_sensor_string at h
  rcases hl : parseLoop (splitComponents s) (splitComponents s) {} with _ | st <;>
    rw [hl] at h
  · cases h
  · exact ⟨st, rfl, h⟩

/-- The validation step requires all four mandatory fields and copies them
into the reading. -/
theorem finalize_fields {st : PDict} {r : Parsed} (h : finalize st = some r) :
    st.ir_detection = some r.ir_detection
    ∧ st.vibration_raw = some r.vibration_raw
    ∧ st.distance_adjusted = some r.distance_adjusted
    ∧ st.fault_detected = some r.fault_detected := by
  unfold finalize at h
  rcases hir : st.ir_detection with _ | ir <;>
    rcases hvb : st.vibration_raw with _ | vib <;>
      rcases hd : st.distance_adjusted with _ | dist <;>
        rcases hf : st.fault_detected with _ | flt <;>
          rw [hir, hvb, hd, hf] at h <;> dsimp only at h
  all_goals try cases h
  rcases hax : st.acceleration_x with _ | ax <;> rw [hax] at h <;> dsimp only at h <;>
    injection h with h <;> subst h <;> exact ⟨rfl, rfl, rfl, rfl⟩

/-- How the validation step determines the acceleration fields. -/
theorem finalize_acc {st : PDict} {r : Parsed} (h : finalize st = some r) :
    (st.acceleration_x = none →
      r.acceleration_x = 0 ∧ r.acceleration_y = 0 ∧ r.acceleration_z = 0)
    ∧ (∀ ax, st.acceleration_x = some ax →
        r.acceleration_x = ax
        ∧ r.acceleration_y = st.acceleration_y.getD 0
        ∧ r.acceleration_z = st.acceleration_z.getD 0) := by
  unfold finalize at h
  rcases hir : st.ir_detection with _ | ir <;>
    rcases hvb : st.vibration_raw with _ | vib <;>
      rcases hd : st.distance_adjusted with _ | dist <;>
        rcases hf : st.fault_detected with _ | flt <;>
          rw [hir, hvb, hd, hf] at h <;> dsimp only at h
  all_goals try cases h
  rcases hax : st.acceleration_x with _ | ax <;> rw [hax] at h <;> dsimp only at h <;>
    injection h with h <;> subst h
  · exact ⟨fun _ => ⟨rfl, rfl, rfl⟩, fun ax hax' => by simp [hax] at hax'⟩
  · refine ⟨fun hax' => by simp [hax] at hax', fun ax' hax' => ?_⟩
    have hx : ax = ax' := by injection hax'
    subst hx
    exact ⟨rfl, rfl, rfl⟩

/-- Model of Python `list.index`: with no duplicate of `c` before it, the
index of `c` in `pre ++ c :: post` is `pre.length`. -/
theorem componentIndex_append {c : String} :
    ∀ pre : List String, c ∉ pre → ∀ post,
      componentIndex c (pre ++ c :: post) = pre.length := by
  intro pre
  induction pre with
  | nil => intro _ post; simp [componentIndex]
  | cons a rest ih =>
      intro hmem post
      have ha : a ≠ c := fun h => hmem (by simp [h])
      simp [componentIndex, ha, ih (fun h => hmem (List.mem_cons_of_mem a h)) post]

/-- Indexing past a prefix lands in the suffix. -/
theorem getD_append (pre : List String) (l : List String) (k : ℕ) :
    (pre ++ l).getD (pre.length + k) "" = l.getD k "" := by
  induction pre with
  | nil => simp
  | cons a rest ih =>
      have harith : rest.length + 1 + k = (rest.length + k) + 1 := by omega
      simp only [List.cons_append, List.length_cons, harith, List.getD_cons_succ]
      exact ih

/-! ## Claim theorems -/

/-- C3: for every decoded reading, `classify` sets `vibration_fault` true
exactly when `400 ≤ vibration_raw ≤ 450`, `distance_fault` true exactly
when `distance_adjusted < 5.0` or `distance_adjusted > 50.0` (so the
boundary values 5.0 and 50.0 give `distance_fault = false`), `ir_fault`
true exactly when `ir_detection == 1`, and `acceleration_fault` true
exactly when some acceleration magnitude exceeds 1000; each flag is a
function of its own fields only. -/
theorem c3_classifier_thresholds (r : Parsed) :
    ((detect_faults r.toFaultInput).vibration_fault ↔
      (400 ≤ r.vibration_raw ∧ r.vibration_raw ≤ 450))
    ∧ ((detect_faults r.toFaultInput).distance_fault ↔
      (r.distance_adjusted < 5 ∨ 50 < r.distance_adjusted))
    ∧ ((detect_faults r.toFaultInput).ir_fault ↔ r.ir_detection = 1)
    ∧ ((detect_faults r.toFaultInput).acceleration_fault ↔
      (1000 < |r.acceleration_x| ∨ 1000 < |r.acceleration_y| ∨
        1000 < |r.acceleration_z|)) := by
  rw [detect_faults_pipeline]
  refine ⟨?_, ?_, ?_, ?_⟩ <;> simp

/-- C7: the connection status computed by the dashboard route is exactly
the spec's function of the latest record's age: no record gives no_data,
age over 10 s disconnected, over 5 s warning, otherwise connected; in
particular ages 2, 7, 12 give connected, warning, disconnected and the
boundary ages 5 and 10 give connected and warning. -/
theorem c7_connection_status :
    (∀ x, connection_status x = connectionStatusSpec x)
    ∧ connection_status none = "no_data"
    ∧ connection_status (some 2) = "connected"
    ∧ connection_status (some 7) = "warning"
    ∧ connection_status (some 12) = "disconnected"
    ∧ connection_status (some 5) = "connected"
    ∧ connection_status (some 10) = "warning" := by
  refine ⟨?_, rfl, rfl, rfl, rfl, rfl, rfl⟩
  intro x
  rcases x with _ | a
  · rfl
  · unfold connection_status connectionStatusSpec
    dsimp only
    split_ifs with g1 g2 g3 g4 <;> first | rfl | (exfalso; linarith)

/-- C4: for every successfully processed reading, the stored
`fault_detected` is the OR of the declared wire FAULT bit with the four
classifier flags: any true flag forces it true, and with all flags false
the declared bit is preserved unchanged. -/
theorem c4_overall_fault_or :
    ∀ s p, process_sensor_input s = some p →
      p.fault_detected = ((p.reading.fault_detected != 0) || anyFault p.faults)
      ∧ (anyFault p.faults = true → p.fault_detected = true)
      ∧ (anyFault p.faults = false →
          p.fault_detected = (p.reading.fault_detected != 0)) := by
  intro s p hp
  unfold process_sensor_input at hp
  rcases hps : parse_sensor_string s with _ | r <;> rw [hps] at hp
  · cases hp
  · injection hp with hp
    subst hp
    dsimp only
    by_cases h : anyFault (detect_faults r.toFaultInput) <;> simp [h]

/-- Witness for C4 at a concrete ingested reading whose flags are all
false and whose declared FAULT bit is 1. -/
theorem c4_overall_fault_or_witness :
    (⟨⟨0, 0, 10, 0, 0, 0, 1⟩, ⟨false, false, false, false⟩, true⟩ : Processed).fault_detected
      = ((((⟨0, 0, 10, 0, 0, 0, 1⟩ : Parsed).fault_detected) != 0)
          || anyFault ⟨false, false, false, false⟩) :=
  (c4_overall_fault_or "IR:0,VIB_RAW:0,DIST_ADJ:10,FAULT:1"
    ⟨⟨0, 0, 10, 0, 0, 0, 1⟩, ⟨false, false, false, false⟩, true⟩ (by decide)).1

/-- Event counts, uniqueness and order for the route's fault-log block,
for every processed reading: one event per true condition, in the fixed
order vibration, distance, ir, acceleration, with the static severities —
the ir condition being the raw `ir_detection` truthiness. -/
theorem makeFaultLogs_shape (p : Processed) :
    ((makeFaultLogs p).count ⟨"vibration", "major"⟩
        = if p.faults.vibration_fault then 1 else 0)
    ∧ ((makeFaultLogs p).count ⟨"distance", "minor"⟩
        = if p.faults.distance_fault then 1 else 0)
    ∧ ((makeFaultLogs p).count ⟨"ir", "critical"⟩
        = if p.reading.ir_detection ≠ 0 then 1 else 0)
    ∧ ((makeFaultLogs p).count ⟨"acceleration", "major"⟩
        = if p.faults.acceleration_fault then 1 else 0)
    ∧ (makeFaultLogs p).Sublist
        [⟨"vibration", "major"⟩, ⟨"distance", "minor"⟩, ⟨"ir", "critical"⟩,
         ⟨"acceleration", "major"⟩] := by
  rcases p with ⟨r, ⟨bv, bd, bi, ba⟩, fd⟩
  cases bv <;> cases bd <;> cases ba <;> by_cases hir : r.ir_detection = 0 <;>
    simp [makeFaultLogs, hir, bne_iff_ne]

/-- C5 counterexample: for the decoded reading of
`"IR:2,VIB_RAW:0,DIST_ADJ:10,FAULT:0"` every classifier flag is false —
in particular `ir_fault` is false since `2 ≠ 1` — yet the route emits an
ir/critical FaultEvent, because its condition is the truthiness of the raw
`ir_detection`, not the `ir_fault` flag.  This refutes "exactly one
FaultEvent per true flag ... no event for a false flag". -/
theorem c5_counterexample :
    (process_sensor_input "IR:2,VIB_RAW:0,DIST_ADJ:10,FAULT:0").map
        (fun p => (p.faults, makeFaultLogs p))
      = some (⟨false, false, false, false⟩, [⟨"ir", "critical"⟩]) := by decide

/-- C5 (amended): for every successfully processed reading the route emits
exactly one FaultEvent per true condition among vibration_fault,
distance_fault, `ir_detection ≠ 0`, acceleration_fault — no other events —
in the fixed order vibration, distance, ir, acceleration with severities
major, minor, critical, major; the ir condition coincides with the
`ir_fault` flag whenever the wire IR value is 0 or 1. -/
theorem c5_fault_events_amended :
    ∀ s p, process_sensor_input s = some p →
      ((makeFaultLogs p).count ⟨"vibration", "major"⟩
          = if p.faults.vibration_fault then 1 else 0)
      ∧ ((makeFaultLogs p).count ⟨"distance", "minor"⟩
          = if p.faults.distance_fault then 1 else 0)
      ∧ ((makeFaultLogs p).count ⟨"ir", "critical"⟩
          = if p.reading.ir_detection ≠ 0 then 1 else 0)
      ∧ ((makeFaultLogs p).count ⟨"acceleration", "major"⟩
          = if p.faults.acceleration_fault then 1 else 0)
      ∧ (makeFaultLogs p).Sublist
          [⟨"vibration", "major"⟩, ⟨"distance", "minor"⟩, ⟨"ir", "critical"⟩,
           ⟨"acceleration", "major"⟩]
      ∧ ((p.reading.ir_detection = 0 ∨ p.reading.ir_detection = 1) →
          ((p.reading.ir_detection ≠ 0) ↔ p.faults.ir_fault = true)) := by
  intro s p hp
  have hshape := makeFaultLogs_shape p
  refine ⟨hshape.1, hshape.2.1, hshape.2.2.1, hshape.2.2.2.1, hshape.2.2.2.2, ?_⟩
  unfold process_sensor_input at hp
  rcases hps : parse_sensor_string s with _ | r <;> rw [hps] at hp
  · cases hp
  · injection hp with hp
    subst hp
    dsimp only
    rw [detect_faults_pipeline]
    rintro (h0 | h1)
    · simp [h0]
    · simp [h1]

/-- Witness for C5 (amended) at the reading of `threeFaultsInput`, whose
vibration, distance and ir conditions are all true. -/
theorem c5_fault_events_amended_witness :
    (makeFaultLogs ⟨⟨1, 425, 3, 0, 0, 0, 1⟩, ⟨true, true, true, false⟩, true⟩).count
        ⟨"vibration", "major"⟩
      = if (⟨true, true, true, false⟩ : Faults).vibration_fault then 1 else 0 :=
  (c5_fault_events_amended threeFaultsInput
    ⟨⟨1, 425, 3, 0, 0, 0, 1⟩, ⟨true, true, true, false⟩, true⟩ (by decide)).1

/-- C8 counterexample: on a dict whose vibration value is the string
"abc", the vibration comparison raises, and the single `try:` block makes
`detect_faults` return with every flag false — although the distance rule
(3 < 5) and the ir rule (1 == 1) both evaluate to true on their own
fields.  This refutes "the other categories' flags are unaffected — each
is still evaluated and takes the value its own rule dictates". -/
theorem c8_counterexample :
    vibCond strVibInput = .error ()
    ∧ distCond strVibInput = .ok true
    ∧ irCond strVibInput = true
    ∧ detect_faults strVibInput = ⟨false, false, false, false⟩ := by
  refine ⟨rfl, rfl, by decide, by decide⟩

/-- C8 (amended): classification never fails — it always returns a flag
set — but the four rules share one exception handler: an exception in a
rule leaves that rule's flag false and skips every later rule (order:
vibration, distance, ir, acceleration), whose flags stay false, while
rules evaluated before the exception keep the values their own conditions
dictate. -/
theorem c8_classifier_single_handler_amended :
    ∀ d : FaultInput,
      (vibCond d = .error () → detect_faults d = ⟨false, false, false, false⟩)
      ∧ (∀ b1, vibCond d = .ok b1 →
          ((detect_faults d).vibration_fault = b1
           ∧ (distCond d = .error () →
               detect_faults d = ⟨b1, false, false, false⟩)
           ∧ (∀ b2, distCond d = .ok b2 →
               ((detect_faults d).distance_fault = b2
                ∧ (detect_faults d).ir_fault = irCond d
                ∧ (accCond d = .error () →
                    detect_faults d = ⟨b1, b2, irCond d, false⟩)
                ∧ (∀ b4, accCond d = .ok b4 →
                    detect_faults d = ⟨b1, b2, irCond d, b4⟩))))) := by
  intro d
  rcases hv : vibCond d with ⟨⟨⟩⟩ | b1 <;>
    rcases hd : distCond d with ⟨⟨⟩⟩ | b2 <;>
      rcases ha : accCond d with ⟨⟨⟩⟩ | b4 <;>
        simp [detect_faults, hv, hd, ha]

/-- Witness for C8 (amended): the error clause at `strVibInput`, and the
all-ok clauses at an all-numeric dict. -/
theorem c8_classifier_single_handler_amended_witness :
    detect_faults strVibInput = ⟨false, false, false, false⟩
    ∧ (detect_faults (Parsed.toFaultInput ⟨1, 425, 3, 0, 0, 0, 1⟩)).vibration_fault
        = true :=
  ⟨(c8_classifier_single_handler_amended strVibInput).1 rfl,
   (((c8_classifier_single_handler_amended
        (Parsed.toFaultInput ⟨1, 425, 3, 0, 0, 0, 1⟩)).2 true rfl)).1⟩

/-- C6 counterexample: ingesting `threeFaultsInput` into an empty store
with a failure injected at the event commit leaves the store holding the
reading but none of its three fault events, and surfaces the failure —
the record and its events are not one atomic unit, and the store is not
left unchanged on error.  This refutes "either the record and all its
events are stored, or nothing is". -/
theorem c6_counterexample :
    (receive_sensor_data {} threeFaultsInput true).2 = false
    ∧ (receive_sensor_data {} threeFaultsInput true).1.readings.length = 1
    ∧ (receive_sensor_data {} threeFaultsInput true).1.faults = []
    ∧ (process_sensor_input threeFaultsInput).map (fun p => (makeFaultLogs p).length)
        = some 3 := by decide

/-- C6 (amended): the record and its events are persisted by two separate
commits.  With no failure, the reading and all its events are appended and
success is returned; a failure at the event commit rolls back only the
pending event rows — the already-committed reading remains stored without
its events — and the failure is surfaced to the caller.  A decode failure
stores nothing and is surfaced. -/
theorem c6_two_commits_amended :
    (∀ st s p, process_sensor_input s = some p →
      receive_sensor_data st s false =
        ({ readings := st.readings ++ [⟨p.reading, p.fault_detected⟩],
           faults := st.faults ++ makeFaultLogs p }, true)
      ∧ receive_sensor_data st s true =
        ({ readings := st.readings ++ [⟨p.reading, p.fault_detected⟩],
           faults := st.faults }, false))
    ∧ (∀ st s b, process_sensor_input s = none →
        receive_sensor_data st s b = (st, false)) := by
  constructor
  · intro st s p hp
    unfold receive_sensor_data
    rw [hp]
    exact ⟨rfl, rfl⟩
  · intro st s b hp
    unfold receive_sensor_data
    rw [hp]

/-- Witness for C6 (amended) at `threeFaultsInput` over the empty store
with the event-commit failure injected. -/
theorem c6_two_commits_amended_witness :
    receive_sensor_data {} threeFaultsInput true
      = ({ readings := [⟨⟨1, 425, 3, 0, 0, 0, 1⟩, true⟩], faults := [] }, false) :=
  (c6_two_commits_amended.1 {} threeFaultsInput
    ⟨⟨1, 425, 3, 0, 0, 0, 1⟩, ⟨true, true, true, false⟩, true⟩ (by decide)).2

/-- C1: decode succeeds only when all four required fields were populated
during the scan (the scan's dict holds all four, and the reading copies
them); a conversion failure for a recognized non-ACC key anywhere in the
input aborts decode entirely; the IR-less example string fails; and a
string with no ACC token decodes (when it does) with all three
accelerations 0.0 — absence of ACC is not a failure. -/
theorem c1_decode_requires_required_fields :
    (∀ s r, parse_sensor_string s = some r →
      ∃ st, parseLoop (splitComponents s) (splitComponents s) {} = some st
        ∧ st.ir_detection = some r.ir_detection
        ∧ st.vibration_raw = some r.vibration_raw
        ∧ st.distance_adjusted = some r.distance_adjusted
        ∧ st.fault_detected = some r.fault_detected)
    ∧ (∀ s, (∃ c ∈ splitComponents s, badConv c = true) →
        parse_sensor_string s = none)
    ∧ parse_sensor_string "VIB_RAW:100,DIST_ADJ:20,FAULT:0" = none
    ∧ (∀ s r, parse_sensor_string s = some r →
        (∀ c ∈ splitComponents s, hasKey "ACC" c = false) →
        r.acceleration_x = 0 ∧ r.acceleration_y = 0 ∧ r.acceleration_z = 0) := by
  refine ⟨?_, ?_, by decide, ?_⟩
  · intro s r h
    obtain ⟨st, hl, hf⟩ := parse_split h
    have hfields := finalize_fields hf
    exact ⟨st, hl, hfields.1, hfields.2.1, hfields.2.2.1, hfields.2.2.2⟩
  · intro s hbad
    unfold parse_sensor_string
    rw [parseLoop_none_of_bad _ _ _ hbad]
  · intro s r h hnoacc
    obtain ⟨st, hl, hf⟩ := parse_split h
    have hpres := parseLoop_acc_preserve _ _ _ _ hnoacc hl
    exact (finalize_acc hf).1 hpres.1

/-- Witness for C1: a failing conversion for the recognized key IR aborts
decode, and an ACC-less decode yields zero accelerations. -/
theorem c1_decode_requires_required_fields_witness :
    parse_sensor_string "IR:abc,VIB_RAW:1,DIST_ADJ:2,FAULT:0" = none
    ∧ ((⟨1, 435, 18, 0, 0, 0, 1⟩ : Parsed).acceleration_x = 0
        ∧ (⟨1, 435, 18, 0, 0, 0, 1⟩ : Parsed).acceleration_y = 0
        ∧ (⟨1, 435, 18, 0, 0, 0, 1⟩ : Parsed).acceleration_z = 0) :=
  ⟨c1_decode_requires_required_fields.2.1 "IR:abc,VIB_RAW:1,DIST_ADJ:2,FAULT:0"
      ⟨"IR:abc", by decide, by decide⟩,
   c1_decode_requires_required_fields.2.2.2 "IR:1,VIB_RAW:435,DIST_ADJ:18,FAULT:1"
      ⟨1, 435, 18, 0, 0, 0, 1⟩ (by decide) (by decide)⟩

/-- C2 counterexample: in
`"IR:1,VIB_RAW:10,DIST_ADJ:20,ACC:5,abc,7,FAULT:0"` the ACC value `5` is
parsable but the first trailing token `abc` is not, and the code's inner
exception handler zeroes all three accelerations — including
acceleration_x, which the claim says still takes the value 5. -/
theorem c2_counterexample :
    pyFloat "5" = some 5
    ∧ (parse_sensor_string "IR:1,VIB_RAW:10,DIST_ADJ:20,ACC:5,abc,7,FAULT:0").map
        Parsed.acceleration_x = some 0
    ∧ (parse_sensor_string "IR:1,VIB_RAW:10,DIST_ADJ:20,ACC:5,abc,7,FAULT:0").map
        Parsed.acceleration_y = some 0
    ∧ (parse_sensor_string "IR:1,VIB_RAW:10,DIST_ADJ:20,ACC:5,abc,7,FAULT:0").map
        Parsed.acceleration_z = some 0
    ∧ (0 : ℚ) ≠ 5 := by decide

/-- C2 (amended): for every input whose split has exactly one ACC-keyed
component, decode takes that component's value as acceleration_x and
consumes the two components immediately following it, by position and
regardless of their own key labels, as acceleration_y and
acceleration_z.  If either trailing component is absent,
acceleration_y and acceleration_z default to 0.0 and acceleration_x still
takes the ACC value; if the ACC value is unparsable, or a trailing
component is present but unparsable as a float, all three default
to 0.0. -/
theorem c2_acc_rule_amended :
    ∀ s pre c post v r,
      splitComponents s = pre ++ c :: post →
      splitFirstColon c = some ("ACC", v) →
      (∀ c' ∈ pre, hasKey "ACC" c' = false) →
      (∀ c' ∈ post, hasKey "ACC" c' = false) →
      parse_sensor_string s = some r →
      ((pyFloat v = none →
          r.acceleration_x = 0 ∧ r.acceleration_y = 0 ∧ r.acceleration_z = 0)
       ∧ (∀ x, pyFloat v = some x →
           (post.length < 2 →
              r.acceleration_x = x ∧ r.acceleration_y = 0 ∧ r.acceleration_z = 0)
           ∧ (2 ≤ post.length →
               ((pyFloat (post.getD 0 "") = none ∨ pyFloat (post.getD 1 "") = none) →
                  r.acceleration_x = 0 ∧ r.acceleration_y = 0 ∧ r.acceleration_z = 0)
               ∧ (∀ y z, pyFloat (post.getD 0 "") = some y →
                   pyFloat (post.getD 1 "") = some z →
                   r.acceleration_x = x ∧ r.acceleration_y = y ∧ r.acceleration_z = z)))) := by
  intro s pre c post v r hsplit hc hpre hpost hr
  obtain ⟨st', hl, hf⟩ := parse_split hr
  rw [hsplit, parseLoop_append] at hl
  rcases h1 : parseLoop (pre ++ c :: post) pre {} with _ | st1 <;> rw [h1] at hl
  · cases hl
  · rw [Option.some_bind] at hl
    unfold parseLoop at hl
    rcases h2 : processComponent (pre ++ c :: post) c st1 with _ | st2 <;> rw [h2] at hl
    · cases hl
    · have hacc := parseLoop_acc_preserve (pre ++ c :: post) post st2 st' hpost hl
      have hfin : ∀ a b q : ℚ, st2.acceleration_x = some a →
          st2.acceleration_y = some b → st2.acceleration_z = some q →
          r.acceleration_x = a ∧ r.acceleration_y = b ∧ r.acceleration_z = q := by
        intro a b q hxa hyb hzq
        have hxa' : st'.acceleration_x = some a := by rw [hacc.1, hxa]
        obtain ⟨ra, rb, rq⟩ := (finalize_acc hf).2 a hxa'
        refine ⟨ra, ?_, ?_⟩
        · rw [rb, hacc.2.1, hyb]; rfl
        · rw [rq, hacc.2.2, hzq]; rfl
      unfold processComponent at h2
      rw [hc] at h2
      dsimp only at h2
      rw [if_neg (by decide), if_neg (by decide), if_neg (by decide), if_pos rfl] at h2
      injection h2 with h2
      have hcpre : c ∉ pre := by
        intro hmem
        have hx := hpre c hmem
        unfold hasKey at hx
        rw [hc] at hx
        simp at hx
      have hidx : componentIndex c (pre ++ c :: post) = pre.length :=
        componentIndex_append pre hcpre post
      have hlen : (pre ++ c :: post).length = pre.length + post.length + 1 := by
        rw [List.length_append, List.length_cons]; omega
      have hg1 : (pre ++ c :: post).getD (pre.length + 1) "" = post.getD 0 "" := by
        have hg := getD_append pre (c :: post) 1
        simpa using hg
      have hg2 : (pre ++ c :: post).getD (pre.length + 2) "" = post.getD 1 "" := by
        have hg := getD_append pre (c :: post) 2
        simpa using hg
      unfold accBranch at h2
      rcases hv : pyFloat v with _ | x <;> rw [hv] at h2 <;> dsimp only at h2
      · subst h2
        exact ⟨fun _ => hfin 0 0 0 rfl rfl rfl, fun x hx => by simp at hx⟩
      · rw [hidx, hlen, hg1, hg2] at h2
        by_cases hb : 2 ≤ post.length
        · rw [if_pos (by omega :
            pre.length + 1 < pre.length + post.length + 1 ∧
            pre.length + 2 < pre.length + post.length + 1)] at h2
          rcases hy : pyFloat (post.getD 0 "") with _ | y <;> rw [hy] at h2 <;>
            dsimp only at h2
          · subst h2
            refine ⟨fun hn => by simp at hn, fun x' hx' => ?_⟩
            have hxe : x = x' := by injection hx'
            subst hxe
            refine ⟨fun hlt => absurd hb (by omega), fun _ => ?_⟩
            exact ⟨fun _ => hfin 0 0 0 rfl rfl rfl,
                   fun y' z' hy' hz' => by simp at hy'⟩
          · rcases hz : pyFloat (post.getD 1 "") with _ | z <;> rw [hz] at h2 <;>
              dsimp only at h2
            · subst h2
              refine ⟨fun hn => by simp at hn, fun x' hx' => ?_⟩
              have hxe : x = x' := by injection hx'
              subst hxe
              refine ⟨fun hlt => absurd hb (by omega), fun _ => ?_⟩
              exact ⟨fun _ => hfin 0 0 0 rfl rfl rfl,
                     fun y' z' hy' hz' => by simp at hz'⟩
            · subst h2
              refine ⟨fun hn => by simp at hn, fun x' hx' => ?_⟩
              have hxe : x = x' := by injection hx'
              subst hxe
              refine ⟨fun hlt => absurd hb (by omega), fun _ => ?_⟩
              refine ⟨fun hor => ?_, fun y' z' hy' hz' => ?_⟩
              · rcases hor with hn | hn <;> simp at hn
              · have hye : y = y' := by injection hy'
                have hze : z = z' := by injection hz'
                subst hye
                subst hze
                exact hfin x y z rfl rfl rfl
        · rw [if_neg (by omega)] at h2
          subst h2
          refine ⟨fun hn => by simp at hn, fun x' hx' => ?_⟩
          have hxe : x = x' := by injection hx'
          subst hxe
          exact ⟨fun _ => hfin x 0 0 rfl rfl rfl, fun h2le => absurd h2le hb⟩

/-- Witness for C2 (amended): the well-formed wire string decodes with the
ACC value and its two positional trailing tokens. -/
theorem c2_acc_rule_amended_witness :
    (⟨1, 10, 20, 5, 6, 7, 0⟩ : Parsed).acceleration_x = 5
    ∧ (⟨1, 10, 20, 5, 6, 7, 0⟩ : Parsed).acceleration_y = 6
    ∧ (⟨1, 10, 20, 5, 6, 7, 0⟩ : Parsed).acceleration_z = 7 :=
  ((c2_acc_rule_amended "IR:1,VIB_RAW:10,DIST_ADJ:20,ACC:5,6,7,FAULT:0"
      ["IR:1", "VIB_RAW:10", "DIST_ADJ:20"] "ACC:5" ["6", "7", "FAULT:0"] "5"
      ⟨1, 10, 20, 5, 6, 7, 0⟩ (by decide) (by decide) (by decide) (by decide)
      (by decide)).2 5 (by decide)).2 (by decide) |>.2 6 7 (by decide) (by decide)

/-- C9: the two tokens positionally consumed after an ACC token are not
removed from the scan.  Concretely, in
`"IR:0,VIB_RAW:100,DIST_ADJ:10,ACC:5,VIB_RAW:200,FAULT:1"` the token
`VIB_RAW:200` is consumed as the acceleration_y candidate (its failed
float conversion zeroes all three accelerations) and is also dispatched,
overwriting `vibration_raw` with 200; and in general, for each recognized
non-ACC key, a successful decode carries the converted value of the key's
last occurrence. -/
theorem c9_consumed_tokens_also_dispatched :
    parse_sensor_string "IR:0,VIB_RAW:100,DIST_ADJ:10,ACC:5,VIB_RAW:200,FAULT:1"
        = some ⟨0, 200, 10, 0, 0, 0, 1⟩
    ∧ (∀ s r v, parse_sensor_string s = some r →
        lastValueOf "IR" (splitComponents s) = some v →
        some r.ir_detection = pyInt v)
    ∧ (∀ s r v, parse_sensor_string s = some r →
        lastValueOf "VIB_RAW" (splitComponents s) = some v →
        some r.vibration_raw = pyInt v)
    ∧ (∀ s r v, parse_sensor_string s = some r →
        lastValueOf "DIST_ADJ" (splitComponents s) = some v →
        some r.distance_adjusted = pyFloat v)
    ∧ (∀ s r v, parse_sensor_string s = some r →
        lastValueOf "FAULT" (splitComponents s) = some v →
        some r.fault_detected = pyInt v) := by
  refine ⟨by decide, ?_, ?_, ?_, ?_⟩
  · intro s r v h hlast
    obtain ⟨st, hl, hf⟩ := parse_split h
    have hkey := (parseLoop_lastKey "IR" PDict.ir_detection pyInt
      (fun v hc hpc => (processComponent_set hc hpc).1 rfl)
      (fun hk hpc => (processComponent_preserve hpc).1 hk)
      (splitComponents s) (splitComponents s) {} st hl).2 v hlast
    rw [← hkey, (finalize_fields hf).1]
  · intro s r v h hlast
    obtain ⟨st, hl, hf⟩ := parse_split h
    have hkey := (parseLoop_lastKey "VIB_RAW" PDict.vibration_raw pyInt
      (fun v hc hpc => (processComponent_set hc hpc).2.1 rfl)
      (fun hk hpc => (processComponent_preserve hpc).2.1 hk)
      (splitComponents s) (splitComponents s) {} st hl).2 v hlast
    rw [← hkey, (finalize_fields hf).2.1]
  · intro s r v h hlast
    obtain ⟨st, hl, hf⟩ := parse_split h
    have hkey := (parseLoop_lastKey "DIST_ADJ" PDict.distance_adjusted pyFloat
      (fun v hc hpc => (processComponent_set hc hpc).2.2.1 rfl)
      (fun hk hpc => (processComponent_preserve hpc).2.2.1 hk)
      (splitComponents s) (splitComponents s) {} st hl).2 v hlast
    rw [← hkey, (finalize_fields hf).2.2.1]
  · intro s r v h hlast
    obtain ⟨st, hl, hf⟩ := parse_split h
    have hkey := (parseLoop_lastKey "FAULT" PDict.fault_detected pyInt
      (fun v hc hpc => (processComponent_set hc hpc).2.2.2 rfl)
      (fun hk hpc => (processComponent_preserve hpc).2.2.2.1 hk)
      (splitComponents s) (splitComponents s) {} st hl).2 v hlast
    rw [← hkey, (finalize_fields hf).2.2.2]

/-- Witness for C9: with VIB_RAW appearing twice, the decoded reading
carries the last occurrence's value. -/
theorem c9_consumed_tokens_also_dispatched_witness :
    some (⟨1, 2, 3, 0, 0, 0, 0⟩ : Parsed).vibration_raw = pyInt "2" :=
  c9_consumed_tokens_also_dispatched.2.2.1 "IR:1,VIB_RAW:1,VIB_RAW:2,DIST_ADJ:3,FAULT:0"
    ⟨1, 2, 3, 0, 0, 0, 0⟩ "2" (by decide) (by decide)

/-- C10: fault_rate is not bounded by 100 — the single reading of
`allFaultsInput` triggers all four categories, so the resulting store has
one reading and four fault events, and
`fault_rate = total_faults / total_readings * 100 = 400 > 100`. -/
theorem c10_fault_rate_exceeds_100 :
    allFaultsStore.readings.length = 1
    ∧ allFaultsStore.faults.length = 4
    ∧ fault_rate allFaultsStore = 400
    ∧ 100 < fault_rate allFaultsStore := by
  have h1 : allFaultsStore.readings.length = 1 := by decide
  have h2 : allFaultsStore.faults.length = 4 := by decide
  have h3 : fault_rate allFaultsStore = 400 := by
    unfold fault_rate
    rw [h1, h2]
    rw [if_pos (by norm_num)]
    unfold round2
    rw [round_eq]
    norm_num
  exact ⟨h1, h2, h3, by rw [h3]; norm_num⟩

end ITMS
